import Mathlib

/-!
Shallow embedding of the simple-cashier point-of-sale backend.

The repository stores a product catalog and sales transactions in a SQL
database accessed through per-request sessions.  We embed the durable
database state as a `DB` record and each endpoint as a pure function
`DB → request → DB × Except ApiError response`: the returned `DB` is the
state that is durable after the call (on an exception the session is
rolled back, so error paths that raise before a commit return the input
state unchanged).  Python `float` prices are embedded as `Rat`; stock and
quantities are Python `int`, embedded as `Int`; autoincrement primary keys
and the `created_at` timestamp are `Nat` counters carried in the state.

Two snapshots of the transaction-creation endpoint exist in the repo:
the naive one in `src/main.py` (per-item product lookup, two separate
commits) and the optimized one in `src/routers/transactions.py` (single
batched lookup, single commit).  Both are embedded below; commit success
or failure of the storage layer is an explicit boolean parameter.
-/

/-- A row of the `product` table (`models.py`, `Product`). -/
structure Product where
  id : Nat
  name : String
  price : Rat
  description : Option String
  stock : Int
deriving DecidableEq

/-- A row of the `transaction` table (`models.py`, `Transaction`). -/
structure TransactionRow where
  id : Nat
  total_amount : Rat
  created_at : Nat
deriving DecidableEq

/-- A row of the `transactionitem` table (`models.py`, `TransactionItem`). -/
structure TransactionItemRow where
  id : Nat
  transaction_id : Nat
  product_id : Nat
  quantity : Int
  price : Rat
deriving DecidableEq

/-- The durable database state, plus the autoincrement counters and a
logical clock supplying `created_at` timestamps. -/
structure DB where
  products : List Product
  transactions : List TransactionRow
  transaction_items : List TransactionItemRow
  nextProductId : Nat
  nextTransactionId : Nat
  nextItemId : Nat
  clock : Nat
deriving DecidableEq

/-- One `{product_id, quantity}` entry of a sale request
(`models.py`, `TransactionItemCreate`): no constraint on `quantity`. -/
structure ItemReq where
  product_id : Nat
  quantity : Int
deriving DecidableEq

/-- A sale request (`models.py`, `TransactionCreate`); its optional
`created_at` field is never read by either endpoint and is omitted. -/
structure TransactionCreateReq where
  items : List ItemReq
deriving DecidableEq

/-- `models.py` `ProductCreate`: no non-negativity constraint is declared
on `price` or `stock`. -/
structure ProductCreateReq where
  name : String
  price : Rat
  description : Option String
  stock : Int
deriving DecidableEq

/-- `models.py` `ProductUpdate`: all fields optional; `none` = unset. -/
structure ProductUpdateReq where
  name : Option String
  price : Option Rat
  description : Option (Option String)
  stock : Option Int
deriving DecidableEq

/-- Errors raised by the endpoints, keyed by the `HTTPException`s of the
source plus the storage-failure outcome of a failed commit. -/
inductive ApiError where
  /-- 400, e.g. "Transaction must have at least one item". -/
  | badRequest (detail : String)
  /-- 404 whose detail names the listed product ids. -/
  | notFoundIds (ids : List Nat)
  /-- generic 404 ("Product not found" / "Transaction not found"). -/
  | notFound
  /-- 400 "Not enough stock", naming the product, its available stock and
  the requested quantity. -/
  | insufficientStock (name : String) (available : Int) (requested : Int)
  /-- the storage layer failed to commit. -/
  | storageFailure
deriving DecidableEq

/-- The `TransactionItemRead` response shape. -/
structure TransactionItemReadRes where
  id : Nat
  quantity : Int
  price : Rat
  product_id : Nat
  transaction_id : Nat
  product_name : String
deriving DecidableEq

/-- The `TransactionRead` response shape. -/
structure TransactionReadRes where
  id : Nat
  total_amount : Rat
  created_at : Nat
  items : List TransactionItemReadRes
deriving DecidableEq

deriving instance DecidableEq for Except

/-- `session.get(Product, i)` / `product_dict[i]`: first row with id `i`. -/
def findProduct (ps : List Product) (i : Nat) : Option Product :=
  ps.find? (fun p => p.id == i)

/-- Does the catalog contain a product with id `i`? -/
def listHasId (ps : List Product) (i : Nat) : Bool :=
  ps.any (fun p => p.id == i)

/-- Stock of the product with id `i`, when present. -/
def findStock (ps : List Product) (i : Nat) : Option Int :=
  (findProduct ps i).map (fun p => p.stock)

/-- Price of the product with id `i`, when present. -/
def findPrice (ps : List Product) (i : Nat) : Option Rat :=
  (findProduct ps i).map (fun p => p.price)

/-- In-place mutation `product.stock = s` of the session object with id
`i`, reflected on the catalog list. -/
def setStock (ps : List Product) (i : Nat) (s : Int) : List Product :=
  ps.map (fun p => if p.id == i then { p with stock := s } else p)

/-- Total quantity requested for product `i` across a request. -/
def reqQty (items : List ItemReq) (i : Nat) : Int :=
  ((items.filter (fun it => it.product_id == i)).map (fun it => it.quantity)).sum

/-- A `TransactionItem` built during the validation loop, before ids are
assigned by the database. -/
structure PendingItem where
  product_id : Nat
  quantity : Int
  price : Rat
deriving DecidableEq

/-- The shared validation/pricing loop of both `create_transaction`
versions: for each item, look the product up (in the session, so stock
deducted by earlier iterations of the same call is visible), fail with a
404 if absent (reachable only in the naive version, which has no batched
pre-check) or a 400 if `product.stock < quantity`, otherwise deduct stock
in memory, add `product.price * quantity` to the running total and record
a pending line item carrying the price snapshot. -/
def processItems : List Product → List ItemReq →
    Except ApiError (List Product × Rat × List PendingItem)
  | ps, [] => .ok (ps, 0, [])
  | ps, item :: rest =>
    match findProduct ps item.product_id with
    | none => .error (.notFoundIds [item.product_id])
    | some product =>
      if product.stock < item.quantity then
        .error (.insufficientStock product.name product.stock item.quantity)
      else
        match processItems (setStock ps product.id (product.stock - item.quantity)) rest with
        | .error e => .error e
        | .ok (ps2, total, out) =>
          .ok (ps2, product.price * item.quantity + total,
               { product_id := product.id, quantity := item.quantity,
                 price := product.price } :: out)

/-- Database id assignment for the pending items of one transaction:
consecutive autoincrement ids starting at `nid`, all owned by `tid`. -/
def buildRows : List PendingItem → Nat → Nat → List TransactionItemRow
  | [], _, _ => []
  | pi :: rest, tid, nid =>
    { id := nid, transaction_id := tid, product_id := pi.product_id,
      quantity := pi.quantity, price := pi.price } :: buildRows rest tid (nid + 1)

/-- Response items: each stored row plus the product name resolved from
the session's product objects (both versions resolve the name from the
very objects mutated during the loop: the router from `product_dict`,
`main.py` through the `item.product` relationship). -/
def buildReadItems (ps : List Product) (rows : List TransactionItemRow) :
    List TransactionItemReadRes :=
  rows.map (fun it =>
    { id := it.id, quantity := it.quantity, price := it.price,
      product_id := it.product_id, transaction_id := it.transaction_id,
      product_name := match findProduct ps it.product_id with
                      | some p => p.name
                      | none => "" })

/-- `src/routers/transactions.py` `create_transaction` (optimized):
batched product lookup, missing-id set difference, validation loop,
then one atomic commit of stock deductions, the transaction row and its
item rows.  `commitOk` models whether that single commit succeeds; on
any failure the session is rolled back and the state is unchanged. -/
def create_transaction_opt (db : DB) (req : TransactionCreateReq) (commitOk : Bool) :
    DB × Except ApiError TransactionReadRes :=
  let product_ids := req.items.map (fun it => it.product_id)
  if product_ids.isEmpty then
    (db, .error (.badRequest "Transaction must have at least one item"))
  else
    let missing := (product_ids.filter (fun i => !listHasId db.products i)).dedup
    if missing.isEmpty then
      match processItems db.products req.items with
      | .error e => (db, .error e)
      | .ok (ps, total, out) =>
        if commitOk then
          let tid := db.nextTransactionId
          let txn : TransactionRow :=
            { id := tid, total_amount := total, created_at := db.clock }
          let rows := buildRows out tid db.nextItemId
          ({ db with
              products := ps
              transactions := db.transactions ++ [txn]
              transaction_items := db.transaction_items ++ rows
              nextTransactionId := tid + 1
              nextItemId := db.nextItemId + out.length
              clock := db.clock + 1 },
           .ok { id := tid, total_amount := total, created_at := db.clock,
                 items := buildReadItems ps rows })
        else (db, .error .storageFailure)
    else (db, .error (.notFoundIds missing))

/-- `src/main.py` `create_transaction` (naive): no empty-request check,
per-item lookup inside the loop, then a FIRST commit persisting the stock
deductions together with the transaction row, and a SECOND commit
persisting the item rows.  `commit1Ok`/`commit2Ok` model the two commits;
a failure of the second leaves the first commit durable. -/
def create_transaction_naive (db : DB) (req : TransactionCreateReq)
    (commit1Ok commit2Ok : Bool) : DB × Except ApiError TransactionReadRes :=
  match processItems db.products req.items with
  | .error e => (db, .error e)
  | .ok (ps, total, out) =>
    if commit1Ok then
      let tid := db.nextTransactionId
      let txn : TransactionRow :=
        { id := tid, total_amount := total, created_at := db.clock }
      let db1 := { db with
                   products := ps
                   transactions := db.transactions ++ [txn]
                   nextTransactionId := tid + 1
                   clock := db.clock + 1 }
      if commit2Ok then
        let rows := buildRows out tid db.nextItemId
        ({ db1 with
            transaction_items := db1.transaction_items ++ rows
            nextItemId := db.nextItemId + out.length },
         .ok { id := tid, total_amount := total, created_at := db.clock,
               items := buildReadItems ps rows })
      else (db1, .error .storageFailure)
    else (db, .error .storageFailure)

/-- `src/routers/products.py` `create_product`: no validation of any
field; inserts the row and returns it with its fresh id. -/
def create_product (db : DB) (pc : ProductCreateReq) : DB × Product :=
  let prod : Product :=
    { id := db.nextProductId, name := pc.name, price := pc.price,
      description := pc.description, stock := pc.stock }
  ({ db with
      products := db.products ++ [prod]
      nextProductId := db.nextProductId + 1 }, prod)

/-- `model_dump(exclude_unset=True)` followed by `setattr` per field. -/
def applyUpdate (p : Product) (u : ProductUpdateReq) : Product :=
  { p with name := u.name.getD p.name,
           price := u.price.getD p.price,
           description := u.description.getD p.description,
           stock := u.stock.getD p.stock }

/-- `src/routers/products.py` `update_product`: 404 when the id is
absent, otherwise overwrite exactly the supplied fields and commit. -/
def update_product (db : DB) (pid : Nat) (u : ProductUpdateReq) :
    DB × Except ApiError Product :=
  match findProduct db.products pid with
  | none => (db, .error .notFound)
  | some p =>
    let p2 := applyUpdate p u
    ({ db with products :=
        db.products.map (fun q => if q.id == pid then p2 else q) }, .ok p2)

/-- `src/routers/transactions.py` `read_transaction`: 404 when the id is
absent, otherwise the stored row, its stored item rows (with their stored
price snapshots) and the current product names. -/
def read_transaction (db : DB) (tid : Nat) : Except ApiError TransactionReadRes :=
  match db.transactions.find? (fun t => t.id == tid) with
  | none => .error .notFound
  | some txn =>
    .ok { id := txn.id, total_amount := txn.total_amount,
          created_at := txn.created_at,
          items := buildReadItems db.products
            (db.transaction_items.filter (fun it => it.transaction_id == tid)) }

/-- The per-item prices reported by a transaction read. -/
def itemPrices (r : TransactionReadRes) : List Rat :=
  r.items.map (fun it => it.price)

/-- `item.price * item.quantity` for a pending item (float times int in
the source, rational times integer here). -/
def itemAmount (pi : PendingItem) : Rat :=
  pi.price * pi.quantity

/-- `item.price * item.quantity` for a stored line-item row. -/
def rowAmount (r : TransactionItemRow) : Rat :=
  r.price * r.quantity

/-- Sample state for concrete instantiations: one product,
"Apple", price 10, stock 5, and no transactions yet. -/
def appleDB : DB :=
  { products := [{ id := 1, name := "Apple", price := 10, description := none, stock := 5 }]
    transactions := []
    transaction_items := []
    nextProductId := 2
    nextTransactionId := 1
    nextItemId := 1
    clock := 0 }

/-- The sale request `[{product 1, quantity 3}]`. -/
def appleReq : TransactionCreateReq := ⟨[⟨1, 3⟩]⟩

/-- The state reached from `appleDB` by the successful sale `appleReq`:
stock 5 becomes 2, one transaction of total 30 with one line item. -/
def appleDB2 : DB :=
  { products := [{ id := 1, name := "Apple", price := 10, description := none, stock := 2 }]
    transactions := [{ id := 1, total_amount := 30, created_at := 0 }]
    transaction_items := [{ id := 1, transaction_id := 1, product_id := 1,
                            quantity := 3, price := 10 }]
    nextProductId := 2
    nextTransactionId := 2
    nextItemId := 2
    clock := 1 }

/-- The response of that successful sale. -/
def appleRes : TransactionReadRes :=
  { id := 1, total_amount := 30, created_at := 0,
    items := [{ id := 1, quantity := 3, price := 10, product_id := 1,
                transaction_id := 1, product_name := "Apple" }] }

/-- A request naming products 1 (present), 2 and 3 (absent). -/
def missReq : TransactionCreateReq := ⟨[⟨1, 1⟩, ⟨2, 1⟩, ⟨3, 1⟩]⟩

/-- A request for zero units of product 1. -/
def zeroQtyReq : TransactionCreateReq := ⟨[⟨1, 0⟩]⟩

/-- A product-creation request with negative price and negative stock. -/
def gadgetReq : ProductCreateReq := ⟨"Gadget", -5, none, -2⟩

/-- The product row `create_product` builds for `gadgetReq` on `appleDB`. -/
def gadgetProd : Product :=
  { id := 2, name := "Gadget", price := -5, description := none, stock := -2 }

/-- The state after creating `gadgetReq` on `appleDB`. -/
def gadgetDB : DB :=
  { appleDB with
    products := appleDB.products ++ [gadgetProd]
    nextProductId := 3 }

/-! ### Catalog lookup lemmas -/

theorem findProduct_id {ps : List Product} {i : Nat} {p : Product}
    (h : findProduct ps i = some p) : p.id = i := by
  unfold findProduct at h
  simpa using List.find?_some h

theorem mem_of_findProduct {ps : List Product} {i : Nat} {p : Product}
    (h : findProduct ps i = some p) : p ∈ ps := by
  unfold findProduct at h
  exact List.mem_of_find?_eq_some h

theorem listHasId_of_findProduct {ps : List Product} {i : Nat} {p : Product}
    (h : findProduct ps i = some p) : listHasId ps i = true := by
  have hm := mem_of_findProduct h
  have hid := findProduct_id h
  unfold listHasId
  simp only [List.any_eq_true]
  exact ⟨p, hm, by simp [hid]⟩

theorem findProduct_setStock (ps : List Product) (i : Nat) (s : Int) (j : Nat) :
    findProduct (setStock ps i s) j =
      (findProduct ps j).map
        (fun p => if p.id == i then { p with stock := s } else p) := by
  have hpred : ((fun p : Product => p.id == j) ∘
      (fun p => if p.id == i then { p with stock := s } else p)) =
      (fun p : Product => p.id == j) := by
    funext q
    by_cases h : q.id = i <;> simp [Function.comp, h]
  unfold findProduct setStock
  rw [List.find?_map, hpred]

theorem findPrice_setStock (ps : List Product) (i : Nat) (s : Int) (j : Nat) :
    findPrice (setStock ps i s) j = findPrice ps j := by
  unfold findPrice
  rw [findProduct_setStock]
  cases h : findProduct ps j with
  | none => rfl
  | some p => by_cases hpi : p.id = i <;> simp [hpi]

theorem findStock_setStock_self {ps : List Product} {i : Nat} {p : Product}
    (h : findProduct ps i = some p) (s : Int) :
    findStock (setStock ps i s) i = some s := by
  unfold findStock
  rw [findProduct_setStock, h]
  simp [findProduct_id h]

theorem findStock_setStock_ne {ps : List Product} {i j : Nat} (hne : j ≠ i) (s : Int) :
    findStock (setStock ps i s) j = findStock ps j := by
  unfold findStock
  rw [findProduct_setStock]
  cases h : findProduct ps j with
  | none => rfl
  | some p =>
    have : p.id = j := findProduct_id h
    simp [this, hne]

/-! ### Lemmas about the validation loop -/

theorem processItems_cons_ok {ps : List Product} {item : ItemReq} {rest : List ItemReq}
    {ps2 : List Product} {T : Rat} {out : List PendingItem}
    (h : processItems ps (item :: rest) = .ok (ps2, T, out)) :
    ∃ product T2 out2,
      findProduct ps item.product_id = some product ∧
      ¬ product.stock < item.quantity ∧
      processItems (setStock ps product.id (product.stock - item.quantity)) rest =
        .ok (ps2, T2, out2) ∧
      T = product.price * item.quantity + T2 ∧
      out = { product_id := product.id, quantity := item.quantity,
              price := product.price } :: out2 := by
  rw [processItems] at h
  split at h
  · exact absurd h (by simp)
  next product hf =>
    split at h
    · exact absurd h (by simp)
    next hq =>
      split at h
      · exact absurd h (by simp)
      next ps3 T3 out3 hr =>
        simp only [Except.ok.injEq, Prod.mk.injEq] at h
        obtain ⟨h1, h2, h3⟩ := h
        exact ⟨product, T3, out3, hf, hq, by rw [hr, h1], h2.symm, h3.symm⟩

theorem reqQty_cons_self {item : ItemReq} {rest : List ItemReq} {i : Nat}
    (h : item.product_id = i) :
    reqQty (item :: rest) i = item.quantity + reqQty rest i := by
  simp [reqQty, List.filter_cons, h]

theorem reqQty_cons_ne {item : ItemReq} {rest : List ItemReq} {i : Nat}
    (h : item.product_id ≠ i) :
    reqQty (item :: rest) i = reqQty rest i := by
  simp [reqQty, List.filter_cons, h]

theorem reqQty_eq_zero {items : List ItemReq} {i : Nat}
    (h : i ∉ items.map (fun it => it.product_id)) : reqQty items i = 0 := by
  induction items with
  | nil => rfl
  | cons item rest ih =>
    simp only [List.map_cons, List.mem_cons] at h
    push_neg at h
    obtain ⟨h1, h2⟩ := h
    rw [reqQty_cons_ne (fun he => h1 he.symm)]
    exact ih h2

/-- The running total returned by the loop is exactly the sum of
(price snapshot x quantity) over the pending line items it built. -/
theorem processItems_total :
    ∀ (items : List ItemReq) (ps ps2 : List Product) (T : Rat) (out : List PendingItem),
      processItems ps items = .ok (ps2, T, out) →
      T = (out.map itemAmount).sum := by
  intro items
  induction items with
  | nil =>
    intro ps ps2 T out h
    simp only [processItems, Except.ok.injEq, Prod.mk.injEq] at h
    obtain ⟨-, h2, h3⟩ := h
    simp [← h2, ← h3]
  | cons item rest ih =>
    intro ps ps2 T out h
    obtain ⟨product, T2, out2, hf, hq, hr, hT, hout⟩ := processItems_cons_ok h
    subst hT hout
    rw [List.map_cons, List.sum_cons, ← ih _ _ _ _ hr]
    rfl

/-- The pending line items are in bijection with the request lines: same
order, same product ids, same (unvalidated) quantities. -/
theorem processItems_shape :
    ∀ (items : List ItemReq) (ps ps2 : List Product) (T : Rat) (out : List PendingItem),
      processItems ps items = .ok (ps2, T, out) →
      out.map (fun pi => (pi.product_id, pi.quantity)) =
        items.map (fun it => (it.product_id, it.quantity)) := by
  intro items
  induction items with
  | nil =>
    intro ps ps2 T out h
    simp only [processItems, Except.ok.injEq, Prod.mk.injEq] at h
    simp [← h.2.2]
  | cons item rest ih =>
    intro ps ps2 T out h
    obtain ⟨product, T2, out2, hf, hq, hr, hT, hout⟩ := processItems_cons_ok h
    subst hout
    simp [findProduct_id hf, ih _ _ _ _ hr]

/-- Every pending line item's price is the price the product had in the
catalog when the call started (the loop only ever mutates stock). -/
theorem processItems_price :
    ∀ (items : List ItemReq) (ps ps2 : List Product) (T : Rat) (out : List PendingItem),
      processItems ps items = .ok (ps2, T, out) →
      ∀ pi ∈ out, findPrice ps pi.product_id = some pi.price := by
  intro items
  induction items with
  | nil =>
    intro ps ps2 T out h
    simp only [processItems, Except.ok.injEq, Prod.mk.injEq] at h
    intro pi hpi
    rw [← h.2.2] at hpi
    exact absurd hpi (List.not_mem_nil pi)
  | cons item rest ih =>
    intro ps ps2 T out h
    obtain ⟨product, T2, out2, hf, hq, hr, hT, hout⟩ := processItems_cons_ok h
    subst hout
    intro pi hpi
    rcases List.mem_cons.mp hpi with hhd | htl
    · subst hhd
      simp only [findPrice]
      rw [show product.id = item.product_id from findProduct_id hf, hf]
      rfl
    · have := ih _ _ _ _ hr pi htl
      rwa [findPrice_setStock] at this

/-- Stock accounting of the loop: for every id, the final catalog stock
is the initial stock minus the total quantity requested for that id (ids
not referenced are untouched, their requested total being zero). -/
theorem processItems_stock :
    ∀ (items : List ItemReq) (ps ps2 : List Product) (T : Rat) (out : List PendingItem),
      processItems ps items = .ok (ps2, T, out) →
      ∀ i, findStock ps2 i = (findStock ps i).map (fun s => s - reqQty items i) := by
  intro items
  induction items with
  | nil =>
    intro ps ps2 T out h i
    simp only [processItems, Except.ok.injEq, Prod.mk.injEq] at h
    rw [← h.1]
    have : reqQty ([] : List ItemReq) i = 0 := rfl
    rw [this]
    cases findStock ps i <;> simp
  | cons item rest ih =>
    intro ps ps2 T out h i
    obtain ⟨product, T2, out2, hf, hq, hr, hT, hout⟩ := processItems_cons_ok h
    have hpid : product.id = item.product_id := findProduct_id hf
    have hrec := ih _ _ _ _ hr i
    rw [hpid] at hrec
    by_cases hi : i = item.product_id
    · subst hi
      rw [findStock_setStock_self hf] at hrec
      have hsp : findStock ps item.product_id = some product.stock := by
        simp [findStock, hf]
      rw [hrec, reqQty_cons_self rfl, hsp]
      simp [sub_sub]
    · have hne2 : i ≠ item.product_id := hi
      rw [findStock_setStock_ne hne2] at hrec
      rw [hrec, reqQty_cons_ne (fun he => hi he.symm)]

/-- Every product referenced by a successfully validated request ends the
loop with non-negative stock: the per-occurrence check `stock < quantity`
bounds each deduction by the running stock. -/
theorem processItems_nonneg :
    ∀ (items : List ItemReq) (ps ps2 : List Product) (T : Rat) (out : List PendingItem),
      processItems ps items = .ok (ps2, T, out) →
      ∀ i ∈ items.map (fun it => it.product_id),
        ∃ s, findStock ps2 i = some s ∧ 0 ≤ s := by
  intro items
  induction items with
  | nil =>
    intro ps ps2 T out h i hi
    exact absurd hi (List.not_mem_nil i)
  | cons item rest ih =>
    intro ps ps2 T out h i hi
    obtain ⟨product, T2, out2, hf, hq, hr, hT, hout⟩ := processItems_cons_ok h
    have hpid : product.id = item.product_id := findProduct_id hf
    by_cases hm : i ∈ rest.map (fun it => it.product_id)
    · exact ih _ _ _ _ hr i hm
    · have hi2 : i = item.product_id := by
        rcases List.mem_cons.mp hi with h1 | h2
        · exact h1
        · exact absurd h2 hm
      subst hi2
      have hrec := processItems_stock _ _ _ _ _ hr item.product_id
      rw [hpid] at hrec
      rw [findStock_setStock_self hf] at hrec
      rw [reqQty_eq_zero hm] at hrec
      refine ⟨product.stock - item.quantity, by simpa using hrec, ?_⟩
      exact sub_nonneg.mpr (le_of_not_lt hq)

/-- If every catalog row has non-negative stock before the loop, every
catalog row still has non-negative stock after it: each in-memory
deduction writes `product.stock - quantity`, checked non-negative. -/
theorem processItems_mem_nonneg :
    ∀ (items : List ItemReq) (ps ps2 : List Product) (T : Rat) (out : List PendingItem),
      (∀ p ∈ ps, 0 ≤ p.stock) →
      processItems ps items = .ok (ps2, T, out) →
      ∀ p ∈ ps2, 0 ≤ p.stock := by
  intro items
  induction items with
  | nil =>
    intro ps ps2 T out hpos h
    simp only [processItems, Except.ok.injEq, Prod.mk.injEq] at h
    rw [← h.1]
    exact hpos
  | cons item rest ih =>
    intro ps ps2 T out hpos h
    obtain ⟨product, T2, out2, hf, hq, hr, hT, hout⟩ := processItems_cons_ok h
    refine ih _ _ _ _ ?_ hr
    intro p2 hp2
    simp only [setStock] at hp2
    obtain ⟨p0, hp0, hpatch⟩ := List.mem_map.mp hp2
    rw [← hpatch]
    by_cases hc : p0.id = product.id
    · simp only [hc, beq_self_eq_true, if_true]
      exact sub_nonneg.mpr (le_of_not_lt hq)
    · simp [hc]
      exact hpos p0 hp0

/-! ### Row-building lemmas -/

theorem buildRows_transaction_id :
    ∀ (out : List PendingItem) (tid nid : Nat),
      ∀ r ∈ buildRows out tid nid, r.transaction_id = tid := by
  intro out
  induction out with
  | nil => intro tid nid r hr; exact absurd hr (List.not_mem_nil r)
  | cons pi rest ih =>
    intro tid nid r hr
    rcases List.mem_cons.mp hr with hhd | htl
    · rw [hhd]
    · exact ih tid (nid + 1) r htl

theorem buildRows_amount_map :
    ∀ (out : List PendingItem) (tid nid : Nat),
      (buildRows out tid nid).map rowAmount = out.map itemAmount := by
  intro out
  induction out with
  | nil => intro tid nid; rfl
  | cons pi rest ih =>
    intro tid nid
    simp only [buildRows, List.map_cons, ih]
    rfl

theorem buildRows_pid_qty_map :
    ∀ (out : List PendingItem) (tid nid : Nat),
      (buildRows out tid nid).map (fun r => (r.product_id, r.quantity)) =
        out.map (fun pi => (pi.product_id, pi.quantity)) := by
  intro out
  induction out with
  | nil => intro tid nid; rfl
  | cons pi rest ih =>
    intro tid nid
    simp only [buildRows, List.map_cons, ih]

theorem buildRows_mem :
    ∀ (out : List PendingItem) (tid nid : Nat),
      ∀ r ∈ buildRows out tid nid,
        ∃ pi ∈ out, r.product_id = pi.product_id ∧
          r.quantity = pi.quantity ∧ r.price = pi.price := by
  intro out
  induction out with
  | nil => intro tid nid r hr; exact absurd hr (List.not_mem_nil r)
  | cons pi rest ih =>
    intro tid nid r hr
    rcases List.mem_cons.mp hr with hhd | htl
    · exact ⟨pi, List.mem_cons_self pi rest, by rw [hhd], by rw [hhd], by rw [hhd]⟩
    · obtain ⟨pi2, hpi2, h1, h2, h3⟩ := ih tid (nid + 1) r htl
      exact ⟨pi2, List.mem_cons_of_mem pi hpi2, h1, h2, h3⟩

/-! ### Inversion of a successful optimized create -/

/-- Unfolding a successful `create_transaction_opt`: the validation loop
succeeded, the commit flag was set, and both the post-state and the
response are built from the loop results. -/
theorem create_opt_ok_elim {db : DB} {req : TransactionCreateReq} {c : Bool}
    {db2 : DB} {res : TransactionReadRes}
    (h : create_transaction_opt db req c = (db2, .ok res)) :
    ∃ ps T out, processItems db.products req.items = .ok (ps, T, out) ∧ c = true ∧
      db2 = { db with
              products := ps
              transactions := db.transactions ++
                [{ id := db.nextTransactionId, total_amount := T, created_at := db.clock }]
              transaction_items := db.transaction_items ++
                buildRows out db.nextTransactionId db.nextItemId
              nextTransactionId := db.nextTransactionId + 1
              nextItemId := db.nextItemId + out.length
              clock := db.clock + 1 } ∧
      res = { id := db.nextTransactionId, total_amount := T, created_at := db.clock,
              items := buildReadItems ps
                (buildRows out db.nextTransactionId db.nextItemId) } := by
  unfold create_transaction_opt at h
  simp only [] at h
  split at h
  · exact absurd h (by simp)
  · split at h
    · split at h
      · exact absurd h (by simp)
      next ps T out heq =>
        split at h
        next hc =>
          simp only [Prod.mk.injEq, Except.ok.injEq] at h
          exact ⟨ps, T, out, heq, hc, h.1.symm, h.2.symm⟩
        · exact absurd h (by simp)
    · exact absurd h (by simp)

/-! ### Concrete evaluations

`Rat` multiplication does not reduce inside the kernel (its normalization
uses well-founded recursion), so concrete runs of a successful sale are
evaluated by `rfl` up to the symbolic arithmetic expression and finished
with `norm_num`. -/

/-- Selling 3 Apples at price 10 from `appleDB` succeeds and produces
exactly `appleDB2` and `appleRes`. -/
theorem apple_sale_eval :
    create_transaction_opt appleDB appleReq true = (appleDB2, .ok appleRes) := by
  have h : create_transaction_opt appleDB appleReq true =
      ({ products := [{ id := 1, name := "Apple", price := 10, description := none, stock := 2 }]
         transactions := [{ id := 1, total_amount := 10 * ((3 : Int) : Rat) + 0, created_at := 0 }]
         transaction_items := [{ id := 1, transaction_id := 1, product_id := 1,
                                 quantity := 3, price := 10 }]
         nextProductId := 2
         nextTransactionId := 2
         nextItemId := 2
         clock := 1 },
       .ok { id := 1, total_amount := 10 * ((3 : Int) : Rat) + 0, created_at := 0,
             items := [{ id := 1, quantity := 3, price := 10, product_id := 1,
                         transaction_id := 1, product_name := "Apple" }] }) := rfl
  rw [h]
  norm_num [appleDB2, appleRes]

/-! ### Claim theorems -/

/-- C1.  For every successful `create_transaction` call (optimized
version, `src/routers/transactions.py`), the persisted transaction row's
`total_amount` equals the sum over its persisted line items of
(price snapshot x quantity), exactly, and each line item's price snapshot
is the price the product had in the catalog at the moment of sale. -/
theorem opt_total_amount_eq_sum_of_line_items
    (db db2 : DB) (req : TransactionCreateReq) (res : TransactionReadRes)
    (h : create_transaction_opt db req true = (db2, .ok res)) :
    ∃ rows, db2.transaction_items = db.transaction_items ++ rows ∧
      (∀ r ∈ rows, r.transaction_id = res.id) ∧
      res.total_amount = (rows.map rowAmount).sum ∧
      db2.transactions = db.transactions ++
        [{ id := res.id, total_amount := res.total_amount,
           created_at := res.created_at }] ∧
      (∀ r ∈ rows, findPrice db.products r.product_id = some r.price) := by
  obtain ⟨ps, T, out, hpi, -, hdb, hres⟩ := create_opt_ok_elim h
  subst hdb hres
  refine ⟨buildRows out db.nextTransactionId db.nextItemId, rfl, ?_, ?_, rfl, ?_⟩
  · exact buildRows_transaction_id out db.nextTransactionId db.nextItemId
  · rw [buildRows_amount_map]
    exact processItems_total _ _ _ _ _ hpi
  · intro r hr
    obtain ⟨pi, hpimem, h1, h2, h3⟩ :=
      buildRows_mem out db.nextTransactionId db.nextItemId r hr
    rw [h1, h3]
    exact processItems_price _ _ _ _ _ hpi pi hpimem

/-- Witness for C1 at the concrete sale of 3 Apples at price 10. -/
theorem opt_total_amount_eq_sum_witness :
    ∃ rows, appleDB2.transaction_items = appleDB.transaction_items ++ rows ∧
      (∀ r ∈ rows, r.transaction_id = appleRes.id) ∧
      appleRes.total_amount = (rows.map rowAmount).sum ∧
      appleDB2.transactions = appleDB.transactions ++
        [{ id := appleRes.id, total_amount := appleRes.total_amount,
           created_at := appleRes.created_at }] ∧
      (∀ r ∈ rows, findPrice appleDB.products r.product_id = some r.price) :=
  opt_total_amount_eq_sum_of_line_items appleDB appleDB2 appleReq appleRes apple_sale_eval

/-- C4.  For every product referenced by a successful
`create_transaction` call, post-commit stock equals pre-call stock minus
the sum of all quantities requested for that product across the whole
transaction, and the result is never negative. -/
theorem opt_stock_deduction_accounting
    (db db2 : DB) (req : TransactionCreateReq) (res : TransactionReadRes)
    (h : create_transaction_opt db req true = (db2, .ok res))
    (i : Nat) (hi : i ∈ req.items.map (fun it => it.product_id)) :
    ∃ s0 s1, findStock db.products i = some s0 ∧
      findStock db2.products i = some s1 ∧
      s1 = s0 - reqQty req.items i ∧ 0 ≤ s1 := by
  obtain ⟨ps, T, out, hpi, -, hdb, -⟩ := create_opt_ok_elim h
  have hst := processItems_stock _ _ _ _ _ hpi i
  obtain ⟨s1, hs1, hpos⟩ := processItems_nonneg _ _ _ _ _ hpi i hi
  rw [hs1] at hst
  cases hs0 : findStock db.products i with
  | none => rw [hs0] at hst; exact absurd hst (by simp)
  | some s0 =>
    rw [hs0] at hst
    simp only [Option.map_some'] at hst
    refine ⟨s0, s1, rfl, ?_, Option.some.inj hst, hpos⟩
    rw [hdb]
    exact hs1

/-- Witness for C4: Apple stock goes from 5 to 2 = 5 - 3. -/
theorem opt_stock_deduction_witness :
    ∃ s0 s1, findStock appleDB.products 1 = some s0 ∧
      findStock appleDB2.products 1 = some s1 ∧
      s1 = s0 - reqQty appleReq.items 1 ∧ 0 ≤ s1 :=
  opt_stock_deduction_accounting appleDB appleDB2 appleReq appleRes apple_sale_eval
    1 (by decide)

/-- Running the naive (`src/main.py`) create on `appleDB` with the second
commit failing: the first commit has already made the stock deduction and
the transaction row durable, and no line items exist. -/
theorem naive_commit2_failure_eval :
    create_transaction_naive appleDB appleReq true false =
      ({ appleDB with
          products := [{ id := 1, name := "Apple", price := 10,
                         description := none, stock := 2 }]
          transactions := [{ id := 1, total_amount := 30, created_at := 0 }]
          nextTransactionId := 2
          clock := 1 }, .error .storageFailure) := by
  have h : create_transaction_naive appleDB appleReq true false =
      ({ products := [{ id := 1, name := "Apple", price := 10,
                        description := none, stock := 2 }]
         transactions := [{ id := 1, total_amount := 10 * ((3 : Int) : Rat) + 0,
                            created_at := 0 }]
         transaction_items := []
         nextProductId := 2
         nextTransactionId := 2
         nextItemId := 1
         clock := 1 }, .error .storageFailure) := rfl
  rw [h]
  norm_num [appleDB]

/-- C3 (code bug).  `src/main.py`'s `create_transaction` commits twice; a
storage failure at the second commit leaves the system in a state that is
NOT the pre-call state: on `appleDB` selling 3 Apples, stock is already
deducted (5 to 2) and an orphaned transaction row (total 30, no line
items) is durable although the call reports an error.  The single-commit
router version at the same input with a failing commit leaves the state
unchanged, as the claim demands. -/
theorem naive_commit_failure_not_atomic :
    (create_transaction_naive appleDB appleReq true false).2 =
      .error .storageFailure ∧
    (create_transaction_naive appleDB appleReq true false).1.products =
      [{ id := 1, name := "Apple", price := 10, description := none, stock := 2 }] ∧
    (create_transaction_naive appleDB appleReq true false).1.transactions =
      [{ id := 1, total_amount := 30, created_at := 0 }] ∧
    (create_transaction_naive appleDB appleReq true false).1.transaction_items = [] ∧
    (create_transaction_naive appleDB appleReq true false).1 ≠ appleDB ∧
    create_transaction_opt appleDB appleReq false = (appleDB, .error .storageFailure) := by
  have h := naive_commit2_failure_eval
  refine ⟨by rw [h], by rw [h]; try rfl, by rw [h]; try rfl, by rw [h]; try rfl,
    ?_, by decide⟩
  rw [h]
  intro hcontra
  have := congrArg (fun d => d.clock) hcontra
  simp [appleDB] at this

/-- C5 (counterexample).  `update_product` validates nothing: starting
from a state in which every stock is non-negative, a catalog update
persists a negative stock, violating the post-commit invariant. -/
theorem update_product_persists_negative_stock :
    (appleDB.products.all (fun p => decide (0 ≤ p.stock))) = true ∧
    update_product appleDB 1 ⟨none, none, none, some (-3)⟩ =
      ({ appleDB with
          products := [{ id := 1, name := "Apple", price := 10,
                         description := none, stock := -3 }] },
       .ok { id := 1, name := "Apple", price := 10, description := none, stock := -3 }) ∧
    ((update_product appleDB 1 ⟨none, none, none, some (-3)⟩).1.products.all
      (fun p => decide (0 ≤ p.stock))) = false :=
  ⟨by decide, by decide, by decide⟩

/-- C5 (amended).  The invariant is preserved by the sale-time deduction
path: a successful `create_transaction` started from a catalog whose
stocks are all non-negative leaves every stock non-negative.  (Product
creation and catalog updates enforce nothing, per the counterexample.) -/
theorem sale_preserves_nonneg_stock
    (db db2 : DB) (req : TransactionCreateReq) (res : TransactionReadRes) (c : Bool)
    (hpos : ∀ p ∈ db.products, 0 ≤ p.stock)
    (h : create_transaction_opt db req c = (db2, .ok res)) :
    ∀ p ∈ db2.products, 0 ≤ p.stock := by
  obtain ⟨ps, T, out, hpi, -, hdb, -⟩ := create_opt_ok_elim h
  subst hdb
  exact processItems_mem_nonneg _ _ _ _ _ hpos hpi

/-- Witness for the amended C5 at the concrete Apple sale. -/
theorem sale_preserves_nonneg_stock_witness :
    (0 : Int) ≤ (Product.mk 1 "Apple" 10 none 2).stock :=
  sale_preserves_nonneg_stock appleDB appleDB2 appleReq appleRes true
    (by decide) apple_sale_eval (Product.mk 1 "Apple" 10 none 2) (by decide)

/-- C6 (counterexample).  `create_product` has no validation path at all:
a creation request with negative price and negative stock succeeds (the
embedded operation, like the source endpoint, cannot reject anything) and
the negative values are persisted verbatim with a fresh id. -/
theorem create_product_accepts_negative_values :
    create_product appleDB gadgetReq = (gadgetDB, gadgetProd) ∧
    gadgetProd.price < 0 ∧ gadgetProd.stock < 0 :=
  ⟨by decide, by decide, by decide⟩

/-- C6 (amended).  `create_product` always succeeds: it copies the
request fields verbatim (negative or not), assigns the next product id,
appends the row and bumps the id counter. -/
theorem create_product_no_validation_fresh_id
    (db db2 : DB) (pc : ProductCreateReq) (p : Product)
    (h : create_product db pc = (db2, p)) :
    p.id = db.nextProductId ∧ p.name = pc.name ∧ p.price = pc.price ∧
    p.description = pc.description ∧ p.stock = pc.stock ∧
    db2.products = db.products ++ [p] ∧
    db2.nextProductId = db.nextProductId + 1 := by
  simp only [create_product, Prod.mk.injEq] at h
  obtain ⟨hdb, hp⟩ := h
  subst hp
  subst hdb
  exact ⟨rfl, rfl, rfl, rfl, rfl, rfl, rfl⟩

/-- Witness for the amended C6 at the negative-valued request. -/
theorem create_product_no_validation_witness :
    gadgetProd.id = appleDB.nextProductId ∧ gadgetProd.name = gadgetReq.name ∧
    gadgetProd.price = gadgetReq.price ∧
    gadgetProd.description = gadgetReq.description ∧
    gadgetProd.stock = gadgetReq.stock ∧
    gadgetDB.products = appleDB.products ++ [gadgetProd] ∧
    gadgetDB.nextProductId = appleDB.nextProductId + 1 :=
  create_product_no_validation_fresh_id appleDB gadgetDB gadgetReq gadgetProd (by decide)

/-- Selling 0 units of product 1 succeeds: stock is unchanged but a
transaction with a quantity-0 line item is committed. -/
theorem zero_qty_sale_eval :
    create_transaction_opt appleDB zeroQtyReq true =
      ({ appleDB with
          transactions := [{ id := 1, total_amount := 0, created_at := 0 }]
          transaction_items := [{ id := 1, transaction_id := 1, product_id := 1,
                                  quantity := 0, price := 10 }]
          nextTransactionId := 2
          nextItemId := 2
          clock := 1 },
       .ok { id := 1, total_amount := 0, created_at := 0,
             items := [{ id := 1, quantity := 0, price := 10, product_id := 1,
                         transaction_id := 1, product_name := "Apple" }] }) := by
  have h : create_transaction_opt appleDB zeroQtyReq true =
      ({ products := [{ id := 1, name := "Apple", price := 10,
                        description := none, stock := 5 }]
         transactions := [{ id := 1, total_amount := 10 * ((0 : Int) : Rat) + 0,
                            created_at := 0 }]
         transaction_items := [{ id := 1, transaction_id := 1, product_id := 1,
                                 quantity := 0, price := 10 }]
         nextProductId := 2
         nextTransactionId := 2
         nextItemId := 2
         clock := 1 },
       .ok { id := 1, total_amount := 10 * ((0 : Int) : Rat) + 0, created_at := 0,
             items := [{ id := 1, quantity := 0, price := 10, product_id := 1,
                         transaction_id := 1, product_name := "Apple" }] }) := rfl
  rw [h]
  norm_num [appleDB]

/-- C9 (counterexample).  A request line with quantity 0 passes the stock
check (`stock < 0` is false) and is committed: the persisted line item
has quantity 0, refuting "every persisted line item has quantity >= 1". -/
theorem zero_quantity_line_item_persisted :
    (create_transaction_opt appleDB zeroQtyReq true).1.transaction_items =
      [{ id := 1, transaction_id := 1, product_id := 1, quantity := 0, price := 10 }] ∧
    ¬ (1 ≤ ({ id := 1, transaction_id := 1, product_id := 1, quantity := 0,
              price := 10 } : TransactionItemRow).quantity) ∧
    (create_transaction_opt appleDB zeroQtyReq true).2 =
      .ok { id := 1, total_amount := 0, created_at := 0,
            items := [{ id := 1, quantity := 0, price := 10, product_id := 1,
                        transaction_id := 1, product_name := "Apple" }] } := by
  have h := zero_qty_sale_eval
  exact ⟨by rw [h], by decide, by rw [h]⟩

/-- C9 (amended).  Persisted line items carry exactly the product ids and
quantities of the request lines, in order, with no positivity validation
anywhere (so quantity 0 is persistable, per the counterexample). -/
theorem opt_item_quantities_from_request
    (db db2 : DB) (req : TransactionCreateReq) (res : TransactionReadRes)
    (h : create_transaction_opt db req true = (db2, .ok res)) :
    ∃ rows, db2.transaction_items = db.transaction_items ++ rows ∧
      rows.map (fun r => (r.product_id, r.quantity)) =
        req.items.map (fun it => (it.product_id, it.quantity)) := by
  obtain ⟨ps, T, out, hpi, -, hdb, -⟩ := create_opt_ok_elim h
  subst hdb
  exact ⟨_, rfl, by rw [buildRows_pid_qty_map]; exact processItems_shape _ _ _ _ _ hpi⟩

/-- Witness for the amended C9 at the concrete Apple sale. -/
theorem opt_item_quantities_witness :
    ∃ rows, appleDB2.transaction_items = appleDB.transaction_items ++ rows ∧
      rows.map (fun r => (r.product_id, r.quantity)) =
        appleReq.items.map (fun it => (it.product_id, it.quantity)) :=
  opt_item_quantities_from_request appleDB appleDB2 appleReq appleRes apple_sale_eval

/-- C2.  A request listing the same product twice, with quantities that
each fit the current stock but jointly exceed it, fails with
InsufficientStock: the second stock check sees the in-memory deduction of
the first iteration (`product_dict` holds the same mutated object).  The
returned state is the unchanged pre-call state. -/
theorem opt_duplicate_oversell_rejected
    (db : DB) (pid : Nat) (q1 q2 : Int) (p : Product) (c : Bool)
    (hf : findProduct db.products pid = some p)
    (h1 : q1 ≤ p.stock) (h2 : q2 ≤ p.stock) (hsum : p.stock < q1 + q2) :
    create_transaction_opt db ⟨[⟨pid, q1⟩, ⟨pid, q2⟩]⟩ c =
      (db, .error (.insufficientStock p.name (p.stock - q1) q2)) := by
  have hpid : p.id = pid := findProduct_id hf
  have hhas : listHasId db.products pid = true := listHasId_of_findProduct hf
  have hstep2 : findProduct (setStock db.products p.id (p.stock - q1)) pid =
      some { p with stock := p.stock - q1 } := by
    rw [findProduct_setStock, hf]
    simp [hpid]
  have hq1n : ¬ p.stock < q1 := not_lt.mpr h1
  have hlt : p.stock - q1 < q2 := by omega
  have hproc : processItems db.products [⟨pid, q1⟩, ⟨pid, q2⟩] =
      .error (.insufficientStock p.name (p.stock - q1) q2) := by
    simp only [processItems, hf, hstep2, hq1n, hlt, if_true, if_false]
  simp only [create_transaction_opt, List.map_cons, List.map_nil,
    List.isEmpty_cons, List.filter_cons, List.filter_nil, hhas,
    Bool.not_true, List.dedup_nil, List.isEmpty_nil, hproc]
  simp

/-- Witness for C2: twice 3 Apples against stock 5 is rejected with the
running availability 2 = 5 - 3, and the state is unchanged. -/
theorem opt_duplicate_oversell_witness :
    create_transaction_opt appleDB ⟨[⟨1, 3⟩, ⟨1, 3⟩]⟩ true =
      (appleDB, .error (.insufficientStock "Apple" 2 3)) :=
  opt_duplicate_oversell_rejected appleDB 1 3 3
    { id := 1, name := "Apple", price := 10, description := none, stock := 5 } true
    (by decide) (by decide) (by decide) (by decide)

/-- C7.  When at least one requested product id is absent from the
catalog, the optimized create fails with a NotFound error whose payload
is exactly the set of missing ids: an id is reported missing precisely
when it is requested and not in the catalog.  The state is unchanged. -/
theorem opt_missing_ids_all_reported
    (db : DB) (req : TransactionCreateReq) (c : Bool) (i0 : Nat)
    (hi0 : i0 ∈ req.items.map (fun it => it.product_id))
    (hmiss : listHasId db.products i0 = false) :
    ∃ missing, create_transaction_opt db req c = (db, .error (.notFoundIds missing)) ∧
      ∀ j, j ∈ missing ↔
        (j ∈ req.items.map (fun it => it.product_id) ∧
         listHasId db.products j = false) := by
  refine ⟨((req.items.map (fun it => it.product_id)).filter
      (fun i => !listHasId db.products i)).dedup, ?_, ?_⟩
  · have hne : ¬ ((req.items.map (fun it => it.product_id)).isEmpty = true) := by
      simp only [List.isEmpty_eq_true]
      exact List.ne_nil_of_mem hi0
    have hmem : i0 ∈ ((req.items.map (fun it => it.product_id)).filter
        (fun i => !listHasId db.products i)).dedup := by
      rw [List.mem_dedup]
      exact List.mem_filter.mpr ⟨hi0, by simp [hmiss]⟩
    have hne2 : ¬ ((((req.items.map (fun it => it.product_id)).filter
        (fun i => !listHasId db.products i)).dedup).isEmpty = true) := by
      simp only [List.isEmpty_eq_true]
      exact List.ne_nil_of_mem hmem
    simp only [create_transaction_opt]
    rw [if_neg hne, if_neg hne2]
  · intro j
    rw [List.mem_dedup, List.mem_filter]
    simp

/-- Witness for C7: requesting products 1 (present), 2 and 3 (absent)
from `appleDB` reports exactly the missing ids. -/
theorem opt_missing_ids_witness :
    ∃ missing, create_transaction_opt appleDB missReq true =
      (appleDB, .error (.notFoundIds missing)) ∧
      ∀ j, j ∈ missing ↔
        (j ∈ missReq.items.map (fun it => it.product_id) ∧
         listHasId appleDB.products j = false) :=
  opt_missing_ids_all_reported appleDB missReq true 2 (by decide) (by decide)

/-- C8.  Price snapshots are immutable: whatever fields a
`update_product` call changes on whatever product, re-reading any
transaction afterwards reports, per line item, exactly the prices it
reported before (the read takes the price from the stored line-item row,
never from the product). -/
theorem price_snapshot_immutable_under_update
    (db : DB) (pid : Nat) (u : ProductUpdateReq) (tid : Nat) :
    (read_transaction (update_product db pid u).1 tid).map itemPrices =
      (read_transaction db tid).map itemPrices := by
  have hkeep : (update_product db pid u).1.transactions = db.transactions ∧
      (update_product db pid u).1.transaction_items = db.transaction_items := by
    unfold update_product
    cases h : findProduct db.products pid <;> simp
  unfold read_transaction
  rw [hkeep.1, hkeep.2]
  cases hfind : db.transactions.find? (fun t => t.id == tid) with
  | none => rfl
  | some txn =>
    simp only [Except.map, itemPrices, buildReadItems, List.map_map]
    rfl

/-- C10 (counterexample).  On the empty request the two implementations
diverge: the naive `src/main.py` version has no empty-request check and
commits an empty transaction with total 0, while the optimized router
version rejects the request with a 400 and changes nothing. -/
theorem empty_request_divergence :
    (create_transaction_naive appleDB ⟨[]⟩ true true).2 =
      .ok { id := 1, total_amount := 0, created_at := 0, items := [] } ∧
    (create_transaction_naive appleDB ⟨[]⟩ true true).1 =
      { appleDB with
        transactions := [{ id := 1, total_amount := 0, created_at := 0 }]
        nextTransactionId := 2
        clock := 1 } ∧
    create_transaction_opt appleDB ⟨[]⟩ true =
      (appleDB, .error (.badRequest "Transaction must have at least one item")) :=
  ⟨by decide, by decide, by decide⟩

/-- C10 (amended).  On every request that is non-empty and references
only existing products, the naive and optimized creates are
observationally equivalent: same result (error or success), identical
post-state and identical response, for any common commit outcome. -/
theorem impls_agree_on_nonempty_existing
    (db : DB) (req : TransactionCreateReq) (c : Bool)
    (hne : req.items ≠ [])
    (hex : ∀ i ∈ req.items.map (fun it => it.product_id),
      listHasId db.products i = true) :
    create_transaction_opt db req c = create_transaction_naive db req c c := by
  have hne2 : ¬ ((req.items.map (fun it => it.product_id)).isEmpty = true) := by
    simp only [List.isEmpty_eq_true, List.map_eq_nil_iff]
    exact hne
  have hfil : (req.items.map (fun it => it.product_id)).filter
      (fun i => !listHasId db.products i) = [] := by
    rw [List.filter_eq_nil_iff]
    intro a ha
    simp [hex a ha]
  simp only [create_transaction_opt, create_transaction_naive]
  rw [if_neg hne2, hfil, List.dedup_nil]
  simp only [List.isEmpty_nil, if_true]
  cases hpi : processItems db.products req.items with
  | error e => rfl
  | ok trip =>
    obtain ⟨ps, T, out⟩ := trip
    cases c <;> rfl

/-- Witness for the amended C10 at the concrete Apple sale. -/
theorem impls_agree_witness :
    create_transaction_opt appleDB appleReq true =
      create_transaction_naive appleDB appleReq true true :=
  impls_agree_on_nonempty_existing appleDB appleReq true (by decide) (by decide)
